import Mathlib

/-!
# Verification of the async-graphql-viz transport binding

Shallow embedding of the three source files of the repository:

* `src/extract.rs`   — request extraction (`GraphQLRequest`, `GraphQLBatchRequest`,
  `receive_batch_multipart`, the `rejection` module);
* `src/response.rs`  — response encoding (`GraphQLResponse` → `Response`);
* `src/subscription.rs` — the `SecWebsocketProtocol` header codec.

External collaborators (the serde_json / serde_cbor codecs, the async-graphql
`Request` deserializer, the http `HeaderName`/`HeaderValue` validators) are
modelled as oracles or as concrete functions mirroring their documented
behaviour; everything written in the repository itself is translated
line by line.
-/

set_option autoImplicit false

namespace AsyncGraphqlViz

/-- A JSON value, as produced by the external `serde_json` parser. -/
inductive Json where
  | null
  | bool (b : Bool)
  | num (n : Int)
  | str (s : String)
  | arr (elems : List Json)
  | obj (fields : List (String × Json))

/-- Looks up the first field with the given key in a JSON object body. -/
def jsonLookup (kvs : List (String × Json)) (k : String) : Option Json :=
  (kvs.find? (fun kv => kv.1 = k)).map (fun kv => kv.2)

/-- The file map decoded from the `map` field:
`HashMap<String, Vec<String>>` modelled as an association list with unique
keys (lookup takes the first entry, removal deletes the key). -/
abbrev FileMap : Type := List (String × List String)

/-- `HashMap::get`-style lookup. -/
def lookupFM (m : FileMap) (k : String) : Option (List String) :=
  (List.find? (fun kv => kv.1 = k) m).map (fun kv => kv.2)

/-- `HashMap::remove`: deletes the key from the map. -/
def removeFM (m : FileMap) (k : String) : FileMap :=
  List.filter (fun kv => decide (kv.1 ≠ k)) m

/-- `HashMap::insert` during deserialization: a later duplicate key
overwrites an earlier one. -/
def insertFM (m : FileMap) (k : String) (v : List String) : FileMap :=
  removeFM m k ++ [(k, v)]

/-- `Vec<String>` from a list of JSON values: every element must be a string. -/
def jsonStringList : List Json → Option (List String)
  | [] => some []
  | .str s :: rest => (jsonStringList rest).map (fun tl => s :: tl)
  | _ => none

/-- `Vec<String>` from a JSON value: must be an array of strings. -/
def jsonPaths : Json → Option (List String)
  | .arr xs => jsonStringList xs
  | _ => none

/-- serde deserialization of `HashMap<String, Vec<String>>` from a JSON value:
must be an object whose values are all arrays of strings. -/
def jsonToFileMap : Json → Option FileMap
  | .obj kvs => kvs.foldlM (fun m kv => (jsonPaths kv.2).map (insertFM m kv.1)) ([] : FileMap)
  | _ => none

/-- An uploaded file value (`async_graphql::UploadValue`): filename, the
declared content type, and the content copied to a temporary file. -/
structure Upload where
  filename : String
  content_type : Option String
  contentId : Nat
deriving DecidableEq

/-- One GraphQL operation document (`async_graphql::Request`). Only the
parts this repository touches are modelled: the query text and the record of
`set_upload` calls made against the document. -/
structure Request where
  query : String
  uploads : List (String × Upload)
deriving DecidableEq

/-- `async_graphql::Request::set_upload(var_path, upload)` (external crate):
modelled as recording the (path, upload) pair on the document. -/
def Request.set_upload (r : Request) (var_path : String) (u : Upload) : Request :=
  { r with uploads := r.uploads ++ [(var_path, u)] }

/-- `async_graphql::BatchRequest`: a single operation or an ordered batch. -/
inductive BatchRequest where
  | Single (r : Request)
  | Batch (rs : List Request)
deriving DecidableEq

/-- Deserialization of `async_graphql::Request` from a JSON value (external
crate): an object carrying a string `query` field; other fields are
defaulted and irrelevant here. -/
def parseRequest : Json → Option Request
  | .obj kvs =>
    match jsonLookup kvs "query" with
    | some (.str q) => some { query := q, uploads := [] }
    | _ => none
  | _ => none

/-- Elementwise deserialization of `Vec<Request>`, preserving order. -/
def parseRequestList : List Json → Option (List Request)
  | [] => some []
  | j :: js =>
    match parseRequest j with
    | some r => (parseRequestList js).map (fun tl => r :: tl)
    | none => none

/-- serde untagged deserialization of `BatchRequest`: first try the
`Single` variant, then the `Batch` (array) variant. -/
def parseBatchRequest (j : Json) : Option BatchRequest :=
  match parseRequest j with
  | some r => some (.Single r)
  | none =>
    match j with
    | .arr xs => (parseRequestList xs).map .Batch
    | _ => none

/-- The error enumeration of `async_graphql::ParseRequestError`, payloads
elided (there is no variant for malformed `operations` bytes). -/
inductive ParseRequestError where
  | io
  | invalidRequest
  | invalidFilesMap
  | missingOperatorsPart
  | missingMapPart
  | missingFiles
  | payloadTooLarge
  | unsupportedBatch
deriving DecidableEq

/-- The `viz_core::Error` values that `receive_batch_multipart` can build:
either a `ParseRequestError` converted into the error type, or the bare
serde_json error propagated by `?` from parsing the `operations` bytes. -/
inductive VizError where
  | parse (e : ParseRequestError)
  | jsonDecode
deriving DecidableEq

/-- True exactly when the error is one of the named `ParseRequestError`
kinds (as opposed to a bare propagated codec error). -/
def VizError.isNamedParseKind : VizError → Bool
  | .parse _ => true
  | .jsonDecode => false

/-- A mime type as used by the code: only `type_()` and `subtype()` are
inspected (parameters and suffixes play no role in `extract.rs`). -/
structure Mime where
  type_ : String
  subtype : String
deriving DecidableEq

/-- `mime::APPLICATION_JSON`, the default content type of a field. -/
def APPLICATION_JSON : Mime := { type_ := "application", subtype := "json" }

/-- `content_type.to_string()`. -/
def mimeToString (m : Mime) : String := m.type_ ++ "/" ++ m.subtype

/-- The bytes of a multipart field, modelled by the outcomes of the external
parsers on them: `asJson` is what `serde_json` yields, `asCborFileMap` what
`serde_cbor::from_slice::<HashMap<String, Vec<String>>>` yields, and
`contentId` identifies the raw content once copied to a temporary file. -/
structure Content where
  asJson : Option Json
  asCborFileMap : Option FileMap
  contentId : Nat

/-- One field of the multipart body as yielded by `multipart.try_next()`. -/
structure Field where
  name : String
  filename : Option String
  content_type : Option Mime
  content : Content

/-- A collected file part: `(name, filename, Some(content_type.to_string()), file)`. -/
structure FileEntry where
  name : String
  filename : String
  content_type : Option String
  contentId : Nat

/-- The loop state of `receive_batch_multipart`:
`request`, `map` and `files` accumulated while draining the field stream. -/
structure LoopState where
  request : Option BatchRequest
  map : Option FileMap
  files : List FileEntry

/-- `json::from_slice::<BatchRequest>(&body)` on the `operations` field:
any failure (invalid JSON or JSON of neither shape) is the bare serde error
propagated by `?`. -/
def decodeOperationsField (c : Content) : Except VizError BatchRequest :=
  match c.asJson.bind parseBatchRequest with
  | some b => .ok b
  | none => .error .jsonDecode

/-- The content-type dispatch on the `map` field (`extract.rs` lines
124–147): with the `cbor` feature enabled, a content type whose type is
`octet-stream`, or `application` with subtype `octet-stream`, selects the
CBOR decoder; everything else decodes as JSON. Either decoder's failure is
wrapped in `ParseRequestError::InvalidFilesMap`. -/
def decodeMapField (cborEnabled : Bool) (ct : Mime) (c : Content) : Except VizError FileMap :=
  if cborEnabled ∧ (ct.type_ = "octet-stream" ∨ (ct.type_ = "application" ∧ ct.subtype = "octet-stream")) then
    match c.asCborFileMap with
    | some m => .ok m
    | none => .error (.parse .invalidFilesMap)
  else
    match c.asJson.bind jsonToFileMap with
    | some m => .ok m
    | none => .error (.parse .invalidFilesMap)

/-- The body of the `while let` loop of `receive_batch_multipart`
(`extract.rs` lines 106–159), processing one field. -/
def stepField (cborEnabled : Bool) (st : LoopState) (f : Field) : Except VizError LoopState :=
  let content_type := f.content_type.getD APPLICATION_JSON
  if f.name = "operations" then
    match decodeOperationsField f.content with
    | .ok b => .ok { st with request := some b }
    | .error e => .error e
  else if f.name = "map" then
    match decodeMapField cborEnabled content_type f.content with
    | .ok m => .ok { st with map := some m }
    | .error e => .error e
  else
    if f.name = "" then .ok st
    else
      match f.filename with
      | some fn =>
        .ok { st with files := st.files ++
          [{ name := f.name, filename := fn,
             content_type := some (mimeToString content_type),
             contentId := f.content.contentId }] }
      | none => .ok st

/-- Drains the field stream, threading the loop state. -/
def collectFields (cborEnabled : Bool) (st : LoopState) : List Field → Except VizError LoopState
  | [] => .ok st
  | f :: fs =>
    match stepField cborEnabled st f with
    | .ok st' => collectFields cborEnabled st' fs
    | .error e => .error e

/-- Rust `"s".splitn(2, '.')` on the character list: `none` when there is
no dot, otherwise the parts before and after the first dot. -/
def splitCharsAtDot : List Char → Option (List Char × List Char)
  | [] => none
  | c :: cs =>
    if c = '.' then some ([], cs)
    else (splitCharsAtDot cs).map (fun p => (c :: p.1, p.2))

/-- `var_path.splitn(2, '.')`: the first element, and the second element
when a dot occurs. -/
def splitFirstDot (s : String) : String × Option String :=
  match splitCharsAtDot s.data with
  | none => (s, none)
  | some (a, b) => (String.mk a, some (String.mk b))

/-- Rust `str::parse::<usize>()`: an optional leading `+`, then one or more
ASCII digits. -/
def parseUsize (s : String) : Option Nat :=
  let t := if s.data.head? = some '+' then s.data.tail else s.data
  if t.isEmpty then none
  else if t.all Char.isDigit then some (t.foldl (fun n c => n * 10 + (c.toNat - 48)) 0)
  else none

/-- The `BatchRequest::Batch` arm of the binder (`extract.rs` lines
177–187): split the path at the first dot, parse the prefix as an index,
and set the upload on that element when it exists; otherwise leave the
batch unchanged. -/
def bindBatchPath (rs : List Request) (var_path : String) (u : Upload) : List Request :=
  match splitFirstDot var_path with
  | (pre, some path) =>
    match parseUsize pre with
    | some idx =>
      match rs.get? idx with
      | some r => rs.set idx (r.set_upload path u)
      | none => rs
    | none => rs
  | (_, none) => rs

/-- The `for var_path in var_paths` loop: binds one upload at each path. -/
def bindPaths (b : BatchRequest) (paths : List String) (u : Upload) : BatchRequest :=
  paths.foldl
    (fun b p =>
      match b with
      | .Single r => .Single (r.set_upload p u)
      | .Batch rs => .Batch (bindBatchPath rs p u))
    b

/-- The `for (name, filename, content_type, content) in files` loop
(`extract.rs` lines 164–191): each file consumes its map entry (if any) and
is bound at each of the entry's paths. `UploadValue::try_clone` is modelled
as infallible duplication of the same upload value. -/
def bindFiles (b : BatchRequest) (m : FileMap) : List FileEntry → BatchRequest × FileMap
  | [] => (b, m)
  | fe :: rest =>
    match lookupFM m fe.name with
    | some paths =>
      bindFiles
        (bindPaths b paths { filename := fe.filename, content_type := fe.content_type, contentId := fe.contentId })
        (removeFM m fe.name) rest
    | none => bindFiles b m rest

/-- The initial loop state: no request, no map, no files. -/
def initState : LoopState := { request := none, map := none, files := [] }

/-- `receive_batch_multipart` (`extract.rs` lines 101–198), over the
successfully streamed field list. -/
def receive_batch_multipart (cborEnabled : Bool) (fields : List Field) : Except VizError BatchRequest :=
  match collectFields cborEnabled initState fields with
  | .error e => .error e
  | .ok st =>
    match st.request with
    | none => .error (.parse .missingOperatorsPart)
    | some req =>
      match st.map with
      | none => .error (.parse .missingMapPart)
      | some m =>
        let bound := bindFiles req m st.files
        if bound.2.isEmpty then .ok bound.1
        else .error (.parse .missingFiles)

/-! ## The extraction facade (`extract.rs` lines 46–99) -/

/-- `Debug`-style rendering of a `ParseRequestError` (payload details of
the boxed errors are elided in the model). -/
def debugFmt : ParseRequestError → String
  | .io => "Io"
  | .invalidRequest => "InvalidRequest"
  | .invalidFilesMap => "InvalidFilesMap"
  | .missingOperatorsPart => "MissingOperatorsPart"
  | .missingMapPart => "MissingMapPart"
  | .missingFiles => "MissingFiles"
  | .payloadTooLarge => "PayloadTooLarge"
  | .unsupportedBatch => "UnsupportedBatch"

/-- A `viz_core::Response`: status code, body and headers. -/
structure Response where
  status : Nat
  body : String
  headers : List (String × String)
deriving DecidableEq

/-- `From<GraphQLRejection> for Response` (`extract.rs` lines 30–37):
`PayloadTooLarge` maps to status 413, everything else to status 400 with
the debug-formatted error as body. -/
def gqlRejectionResponse : ParseRequestError → Response
  | .payloadTooLarge => { status := 413, body := "", headers := [] }
  | e => { status := 400, body := debugFmt e, headers := [] }

/-- The three routes of `GraphQLBatchRequest::extract`, with the outcomes
of the external context accessors baked in: the GET query-string decode,
the multipart field stream, or the JSON body decode. -/
inductive RequestKind where
  | get (queryResult : Option Request)
  | multipartReq (fields : List Field)
  | jsonBody (bodyResult : Option BatchRequest)

/-- `GraphQLBatchRequest::extract` (`extract.rs` lines 72–98): GET wraps
the query-string operation in `Single`; a multipart body runs
`receive_batch_multipart` with every error wrapped in
`ParseRequestError::InvalidRequest`; otherwise the whole body is decoded
as a `BatchRequest`, failures again wrapped in `InvalidRequest`. -/
def gqlBatchExtract (cborEnabled : Bool) : RequestKind → Except ParseRequestError BatchRequest
  | .get (some r) => .ok (.Single r)
  | .get none => .error .invalidRequest
  | .multipartReq fields =>
    (receive_batch_multipart cborEnabled fields).mapError (fun _ => .invalidRequest)
  | .jsonBody (some b) => .ok b
  | .jsonBody none => .error .invalidRequest

/-- `async_graphql::BatchRequest::into_single` (external crate): a batch
shape is rejected with `UnsupportedBatch`. -/
def BatchRequest.into_single : BatchRequest → Except ParseRequestError Request
  | .Single r => .ok r
  | .Batch _ => .error .unsupportedBatch

/-- `GraphQLRequest::extract` (`extract.rs` lines 49–55): extract the full
batch request, then `into_single`. -/
def gqlRequestExtract (cborEnabled : Bool) (k : RequestKind) : Except ParseRequestError Request :=
  (gqlBatchExtract cborEnabled k).bind BatchRequest.into_single

/-! ## The response encoder (`response.rs`) -/

/-- ASCII lowercasing of one character, as `HeaderName` normalization does. -/
def lowerChar (c : Char) : Char :=
  if 65 ≤ c.toNat ∧ c.toNat ≤ 90 then Char.ofNat (c.toNat + 32) else c

/-- ASCII lowercasing of a string. -/
def lowerStr (s : String) : String := String.mk (s.data.map lowerChar)

/-- `http::HeaderValue::from_str` validity: every byte is the horizontal
tab or in the visible range (32 ≤ b, b ≠ 127); codepoints above 127 encode
to bytes above 127 and are accepted. -/
def headerValueValid (s : String) : Bool :=
  s.data.all (fun c => c.toNat = 9 || (32 ≤ c.toNat && c.toNat ≠ 127))

/-- A character allowed in an `http::HeaderName`: ASCII alphanumeric or
one of the token symbols. -/
def headerNameCharOk (c : Char) : Bool :=
  c.isAlphanum || (c.toNat ∈ [33, 35, 36, 37, 38, 39, 42, 43, 45, 46, 94, 95, 96, 124, 126])

/-- `http::header::HeaderName::try_from(bytes)` validity: nonempty and all
characters in the token set (uppercase letters are accepted and
normalized to lowercase). -/
def headerNameValid (s : String) : Bool :=
  !s.data.isEmpty && s.data.all headerNameCharOk

/-- `HeaderMap::insert`: replaces any existing entry for the key. -/
def insertHeader (r : Response) (k v : String) : Response :=
  { r with headers := r.headers.filter (fun kv => decide (kv.1 ≠ k)) ++ [(k, v)] }

/-- First header with the given (already lowercased) name. -/
def lookupHeader (r : Response) (k : String) : Option String :=
  (r.headers.find? (fun kv => kv.1 = k)).map (fun kv => kv.2)

/-- `viz_core::Response::json(body)`: a 200 response with a JSON content
type header and the given body. -/
def Response.json (s : String) : Response :=
  { status := 200, body := s, headers := [("content-type", "application/json")] }

/-- The interface of `async_graphql::BatchResponse` that `response.rs`
uses (external crate, modelled as an oracle record): `is_ok()`, the
`cache_control().value()` string, the `http_headers()` pairs, and the
serialized JSON body. -/
structure BatchResponse where
  is_ok : Bool
  cache_control_value : Option String
  http_headers : List (String × String)
  serialized : String

/-- The `for (name, value) in gr.0.http_headers()` loop (`response.rs`
lines 35–42): pairs whose name and value are both valid are inserted
(names normalized to lowercase), all others are skipped. -/
def applyCustomHeaders (r : Response) : List (String × String) → Response
  | [] => r
  | (n, v) :: rest =>
    if headerNameValid n && headerValueValid v then
      applyCustomHeaders (insertHeader r (lowerStr n) v) rest
    else applyCustomHeaders r rest

/-- `From<GraphQLResponse> for Response` (`response.rs` lines 24–45):
JSON body; the cache-control header is inserted only for an error-free
result with a syntactically valid directive value; then the custom
headers are applied. -/
def graphQLResponseToResponse (gr : BatchResponse) : Response :=
  let resp := Response.json gr.serialized
  let resp :=
    if gr.is_ok then
      match gr.cache_control_value with
      | some cc => if headerValueValid cc then insertHeader resp "cache-control" cc else resp
      | none => resp
    else resp
  applyCustomHeaders resp gr.http_headers

/-! ## The subscription header codec (`subscription.rs` lines 20–52) -/

/-- `async_graphql::http::WebSocketProtocols` (external crate). -/
inductive WebSocketProtocols where
  | SubscriptionsTransportWS
  | GraphQLWS
deriving DecidableEq

/-- `WebSocketProtocols::from_str` (external crate):
`graphql-ws` is the legacy subscriptions-transport-ws protocol,
`graphql-transport-ws` the newer protocol, anything else fails. -/
def wsProtocolFromStr (s : String) : Option WebSocketProtocols :=
  if s = "graphql-ws" then some .SubscriptionsTransportWS
  else if s = "graphql-transport-ws" then some .GraphQLWS
  else none

/-- A raw header value, modelled by the outcome of `HeaderValue::to_str`
on it (`none` when the bytes are not a valid string). -/
structure RawHeaderValue where
  asStr : Option String

/-- The `headers::Error` produced by `headers::Error::invalid()`. -/
inductive HeadersError where
  | invalid
deriving DecidableEq

/-- `SecWebsocketProtocol::decode` (`subscription.rs` lines 29–45): the
first value, converted to a string (failure is an error), parsed as a
protocol with unparseable values defaulting to
`SubscriptionsTransportWS`; an empty value iterator is an error. -/
def secWebsocketProtocolDecode : List RawHeaderValue → Except HeadersError WebSocketProtocols
  | [] => .error .invalid
  | v :: _ =>
    match v.asStr with
    | none => .error .invalid
    | some s => .ok ((wsProtocolFromStr s).getD .SubscriptionsTransportWS)

/-! ## Theorems -/

/-- C2: a decoding failure of the `PayloadTooLarge` kind is rejected with
status 413, while every other parse error kind is rejected with the
generic 400 status; the two statuses are distinct. -/
theorem c2_payload_too_large_status :
    (gqlRejectionResponse .payloadTooLarge).status = 413
    ∧ (∀ e : ParseRequestError, e ≠ .payloadTooLarge → (gqlRejectionResponse e).status = 400)
    ∧ (gqlRejectionResponse .payloadTooLarge).status ≠ (gqlRejectionResponse .invalidRequest).status := by
  refine ⟨rfl, ?_, by decide⟩
  intro e he
  cases e <;> first | rfl | exact absurd rfl he

/-- Witness for C2 at the `InvalidFilesMap` kind. -/
theorem c2_payload_too_large_status_witness :
    (gqlRejectionResponse .invalidFilesMap).status = 400 :=
  c2_payload_too_large_status.2.1 ParseRequestError.invalidFilesMap (by decide)

/-- C10: the single-request extractor is the batch extractor followed by
`into_single`, so it succeeds exactly when the decoded batch is
single-shaped, and a batch-shaped decode is rejected with
`UnsupportedBatch`. -/
theorem c10_single_extractor (cb : Bool) (k : RequestKind) :
    (∀ r, gqlRequestExtract cb k = .ok r ↔ gqlBatchExtract cb k = .ok (.Single r))
    ∧ (∀ rs, gqlBatchExtract cb k = .ok (.Batch rs) →
        gqlRequestExtract cb k = .error .unsupportedBatch) := by
  constructor
  · intro r
    unfold gqlRequestExtract
    cases h : gqlBatchExtract cb k with
    | error e => simp [Except.bind]
    | ok b => cases b <;> simp [Except.bind, BatchRequest.into_single]
  · intro rs h
    unfold gqlRequestExtract
    rw [h]
    rfl

/-- Witness for C10: a JSON body decoding to an (empty) array batch is
rejected by the single-request extractor. -/
theorem c10_single_extractor_witness :
    gqlRequestExtract false (.jsonBody (some (.Batch []))) = .error .unsupportedBatch :=
  (c10_single_extractor false (.jsonBody (some (.Batch [])))).2 [] rfl

/-- C3: the batch-shaped binder splits the path at the first dot, parses
the prefix as an index, and sets the upload only on the indexed element
when that index is in range; a path with no dot, an unparseable prefix,
or an out-of-range index leaves the batch unchanged, with no error. -/
theorem c3_batch_path_binding (rs : List Request) (var_path : String) (u : Upload) :
    (∀ pre rest idx r, splitFirstDot var_path = (pre, some rest) →
        parseUsize pre = some idx → rs.get? idx = some r →
        bindBatchPath rs var_path u = rs.set idx (r.set_upload rest u))
    ∧ (∀ pre, splitFirstDot var_path = (pre, none) → bindBatchPath rs var_path u = rs)
    ∧ (∀ pre rest, splitFirstDot var_path = (pre, some rest) → parseUsize pre = none →
        bindBatchPath rs var_path u = rs)
    ∧ (∀ pre rest idx, splitFirstDot var_path = (pre, some rest) →
        parseUsize pre = some idx → rs.get? idx = none →
        bindBatchPath rs var_path u = rs) := by
  refine ⟨?_, ?_, ?_, ?_⟩ <;> intros <;> unfold bindBatchPath <;>
    simp_all [List.getElem?_eq_none]

/-- Witness for C3: in a two-element batch, path `1.variables.file` binds
only into element 1, and the out-of-range path `5.variables.file` is
silently skipped. -/
theorem c3_batch_path_binding_witness :
    bindBatchPath [⟨"q0", []⟩, ⟨"q1", []⟩] "1.variables.file" ⟨"a.txt", none, 0⟩ =
      [⟨"q0", []⟩, ⟨"q1", [("variables.file", ⟨"a.txt", none, 0⟩)]⟩]
    ∧ bindBatchPath [⟨"q0", []⟩, ⟨"q1", []⟩] "5.variables.file" ⟨"a.txt", none, 0⟩ =
      [⟨"q0", []⟩, ⟨"q1", []⟩] := by
  constructor
  · have h := (c3_batch_path_binding [⟨"q0", []⟩, ⟨"q1", []⟩] "1.variables.file"
      ⟨"a.txt", none, 0⟩).1 "1" "variables.file" 1 ⟨"q1", []⟩ rfl rfl rfl
    rw [h]
    rfl
  · exact (c3_batch_path_binding _ _ _).2.2.2 "5" "variables.file" 5 rfl rfl rfl

/-- The content-type condition under which the code decodes the `map`
field as CBOR: the type is `octet-stream` (any subtype), or the type is
`application` with subtype `octet-stream`. -/
def codeSelectsCbor (ct : Mime) : Bool :=
  ct.type_ == "octet-stream" || (ct.type_ == "application" && ct.subtype == "octet-stream")

/-- C7 (amended): with the CBOR feature enabled, a `map` content type
whose type is `octet-stream` (any subtype) — not only
`application/octet-stream` — selects the CBOR decoder; every other case
decodes as JSON; and every decode failure is `InvalidFilesMap`. -/
theorem c7_map_content_type (cb : Bool) (ct : Mime) (c : Content) :
    (cb = true → codeSelectsCbor ct = true →
      decodeMapField cb ct c =
        match c.asCborFileMap with
        | some m => .ok m
        | none => .error (.parse .invalidFilesMap))
    ∧ (cb = false ∨ codeSelectsCbor ct = false →
      decodeMapField cb ct c =
        match c.asJson.bind jsonToFileMap with
        | some m => .ok m
        | none => .error (.parse .invalidFilesMap))
    ∧ (∀ e, decodeMapField cb ct c = .error e → e = .parse .invalidFilesMap) := by
  refine ⟨?_, ?_, ?_⟩
  · intro hcb hsel
    simp only [codeSelectsCbor, Bool.or_eq_true, Bool.and_eq_true, beq_iff_eq] at hsel
    unfold decodeMapField
    rw [if_pos ⟨by simp [hcb], hsel⟩]
  · intro hor
    unfold decodeMapField
    rw [if_neg]
    intro ⟨h1, h2⟩
    cases hor with
    | inl h => simp [h] at h1
    | inr h => simp [codeSelectsCbor, Bool.or_eq_true, Bool.and_eq_true, beq_iff_eq] at h; exact absurd h2 (by tauto)
  · intro e he
    unfold decodeMapField at he
    split at he <;> split at he <;> simp_all

/-- The mime type `octet-stream/foo` and CBOR-only bytes used to refute
C7 as stated. -/
def c7Mime : Mime := { type_ := "octet-stream", subtype := "foo" }

/-- `map` bytes that are a valid CBOR file map but not valid JSON. -/
def c7Content : Content :=
  { asJson := none, asCborFileMap := some [("f", ["variables.file"])], contentId := 0 }

/-- Counterexample to C7 as stated: a `map` field with content type
`octet-stream/foo` — which is not `application/octet-stream` — is decoded
as CBOR and succeeds, while decoding it as JSON (as the claim requires)
would fail with `InvalidFilesMap`. -/
theorem c7_octet_stream_type_cex :
    decodeMapField true c7Mime c7Content = .ok [("f", ["variables.file"])]
    ∧ c7Mime ≠ { type_ := "application", subtype := "octet-stream" }
    ∧ c7Content.asJson.bind jsonToFileMap = none := by
  exact ⟨rfl, by decide, rfl⟩

/-- Witness for C7 (amended) at `application/octet-stream` with the
feature enabled, and at `application/json` for the JSON branch. -/
theorem c7_map_content_type_witness :
    decodeMapField true { type_ := "application", subtype := "octet-stream" } c7Content =
      .ok [("f", ["variables.file"])]
    ∧ decodeMapField true APPLICATION_JSON c7Content = .error (.parse .invalidFilesMap) := by
  constructor
  · have h := (c7_map_content_type true { type_ := "application", subtype := "octet-stream" }
      c7Content).1 rfl rfl
    rw [h]
    rfl
  · have h := (c7_map_content_type true APPLICATION_JSON c7Content).2.1 (Or.inr rfl)
    rw [h]
    rfl

/-- C8 (amended): a header value that converts to a string but names no
known sub-protocol negotiates the legacy `SubscriptionsTransportWS`
variant; but a missing header (empty value iterator) or a value that is
not a valid string yields a decode error, not the legacy default. -/
theorem c8_subprotocol_default (vs : List RawHeaderValue) :
    (vs = [] → secWebsocketProtocolDecode vs = .error .invalid)
    ∧ (∀ v rest s, vs = v :: rest → v.asStr = some s → wsProtocolFromStr s = none →
        secWebsocketProtocolDecode vs = .ok .SubscriptionsTransportWS)
    ∧ (∀ v rest, vs = v :: rest → v.asStr = none →
        secWebsocketProtocolDecode vs = .error .invalid) := by
  refine ⟨?_, ?_, ?_⟩
  · intro h
    subst h
    rfl
  · intro v rest s hvs hs hp
    subst hvs
    simp [secWebsocketProtocolDecode, hs, hp]
  · intro v rest hvs hs
    subst hvs
    simp [secWebsocketProtocolDecode, hs]

/-- Counterexample to C8 as stated: with the header missing entirely, the
decoder returns an error, not the legacy variant. -/
theorem c8_missing_header_cex :
    secWebsocketProtocolDecode [] = .error .invalid
    ∧ secWebsocketProtocolDecode [] ≠ .ok .SubscriptionsTransportWS := by
  refine ⟨rfl, ?_⟩
  intro h
  exact Except.noConfusion (rfl.trans h.symm : Except.ok WebSocketProtocols.SubscriptionsTransportWS = Except.error HeadersError.invalid)

/-- Witness for C8 (amended): an unknown protocol name defaults to the
legacy variant. -/
theorem c8_subprotocol_default_witness :
    secWebsocketProtocolDecode [{ asStr := some "bogus" }] = .ok .SubscriptionsTransportWS :=
  (c8_subprotocol_default [{ asStr := some "bogus" }]).2.1 { asStr := some "bogus" } [] "bogus"
    rfl rfl rfl

/-- Finding the entry for `k` after an insert of `k` itself yields the
inserted value. -/
theorem find?_key_filter_ne_append (k v : String) (hs : List (String × String)) :
    List.find? (fun kv => kv.1 = k) (hs.filter (fun kv => decide (kv.1 ≠ k)) ++ [(k, v)]) =
      some (k, v) := by
  induction hs with
  | nil => exact List.find?_cons_of_pos _ (by simp)
  | cons h t ih =>
    rw [List.filter_cons]
    by_cases hh : h.1 = k
    · rw [if_neg (by simp [hh])]
      exact ih
    · rw [if_pos (by simp [hh]), List.cons_append,
        List.find?_cons_of_neg _ (by simp [hh]), ih]

/-- Finding the entry for a different key is unaffected by an insert. -/
theorem find?_key_filter_ne_append_other (k k' v : String) (hk : k' ≠ k)
    (hs : List (String × String)) :
    List.find? (fun kv => kv.1 = k') (hs.filter (fun kv => decide (kv.1 ≠ k)) ++ [(k, v)]) =
      List.find? (fun kv => kv.1 = k') hs := by
  induction hs with
  | nil =>
    show List.find? _ [(k, v)] = none
    rw [List.find?_cons_of_neg _ (by simp [Ne.symm hk])]
    rfl
  | cons h t ih =>
    rw [List.filter_cons]
    by_cases hh : h.1 = k
    · rw [if_neg (by simp [hh]), ih,
        List.find?_cons_of_neg _ (by rw [hh]; simp [Ne.symm hk])]
    · rw [if_pos (by simp [hh]), List.cons_append]
      by_cases hh' : h.1 = k'
      · rw [List.find?_cons_of_pos _ (by simp [hh']),
          List.find?_cons_of_pos _ (by simp [hh'])]
      · rw [List.find?_cons_of_neg _ (by simp [hh']),
          List.find?_cons_of_neg _ (by simp [hh']), ih]

/-- `lookupHeader` after `insertHeader` of the same key. -/
theorem lookupHeader_insert_self (r : Response) (k v : String) :
    lookupHeader (insertHeader r k v) k = some v := by
  unfold lookupHeader insertHeader
  rw [find?_key_filter_ne_append]
  rfl

/-- `lookupHeader` after `insertHeader` of a different key. -/
theorem lookupHeader_insert_other (r : Response) (k k' v : String) (h : k' ≠ k) :
    lookupHeader (insertHeader r k v) k' = lookupHeader r k' := by
  unfold lookupHeader insertHeader
  rw [find?_key_filter_ne_append_other k k' v h]

/-- Applying custom headers none of which is named `cache-control` does
not change the `cache-control` header. -/
theorem lookupHeader_applyCustom (hs : List (String × String)) :
    ∀ r : Response, (∀ p ∈ hs, lowerStr p.1 ≠ "cache-control") →
      lookupHeader (applyCustomHeaders r hs) "cache-control" =
        lookupHeader r "cache-control" := by
  induction hs with
  | nil => intro r _; rfl
  | cons p t ih =>
    intro r hall
    unfold applyCustomHeaders
    have hp : lowerStr p.1 ≠ "cache-control" := hall p (List.mem_cons_self p t)
    have ht : ∀ q ∈ t, lowerStr q.1 ≠ "cache-control" :=
      fun q hq => hall q (List.mem_cons_of_mem p hq)
    by_cases hv : headerNameValid p.1 && headerValueValid p.2
    · rw [if_pos hv, ih _ ht, lookupHeader_insert_other _ _ _ _ (fun he => hp he.symm)]
    · rw [if_neg hv, ih _ ht]

/-- The base JSON response has no `cache-control` header. -/
theorem lookupHeader_json_none (s : String) :
    lookupHeader (Response.json s) "cache-control" = none := by
  simp [lookupHeader, Response.json, List.find?]

/-- C9: for an error-free result, a syntactically valid cache-control
directive from execution is copied into the `cache-control` header and an
invalid one is silently dropped; for a result containing errors the
directive is never copied (assuming execution returned no custom header
itself named `cache-control`). -/
theorem c9_cache_control (gr : BatchResponse)
    (hnc : ∀ p ∈ gr.http_headers, lowerStr p.1 ≠ "cache-control") :
    (∀ cc, gr.is_ok = true → gr.cache_control_value = some cc → headerValueValid cc = true →
      lookupHeader (graphQLResponseToResponse gr) "cache-control" = some cc)
    ∧ (∀ cc, gr.is_ok = true → gr.cache_control_value = some cc → headerValueValid cc = false →
      lookupHeader (graphQLResponseToResponse gr) "cache-control" = none)
    ∧ (gr.is_ok = false →
      lookupHeader (graphQLResponseToResponse gr) "cache-control" = none) := by
  refine ⟨?_, ?_, ?_⟩
  · intro cc hok hcc hvalid
    unfold graphQLResponseToResponse
    rw [lookupHeader_applyCustom _ _ hnc]
    simp only [hok, if_true, hcc, hvalid, if_pos]
    exact lookupHeader_insert_self _ _ _
  · intro cc hok hcc hvalid
    unfold graphQLResponseToResponse
    rw [lookupHeader_applyCustom _ _ hnc]
    simp only [hok, if_true, hcc, hvalid]
    exact lookupHeader_json_none _
  · intro hok
    unfold graphQLResponseToResponse
    rw [lookupHeader_applyCustom _ _ hnc]
    simp only [hok]
    exact lookupHeader_json_none _

/-- Witness for C9: `max-age=60` is copied for an error-free result and
omitted for a result with errors. -/
theorem c9_cache_control_witness :
    lookupHeader (graphQLResponseToResponse
      { is_ok := true, cache_control_value := some "max-age=60",
        http_headers := [], serialized := "x" }) "cache-control" = some "max-age=60"
    ∧ lookupHeader (graphQLResponseToResponse
      { is_ok := false, cache_control_value := some "max-age=60",
        http_headers := [], serialized := "x" }) "cache-control" = none := by
  constructor
  · exact (c9_cache_control _ (by simp)).1 "max-age=60" rfl rfl (by decide)
  · exact (c9_cache_control _ (by simp)).2.2 rfl

/-- A step on a field not named `operations` leaves the decoded request
unchanged. -/
theorem stepField_ok_request_eq {cb : Bool} {st st' : LoopState} {f : Field}
    (hn : f.name ≠ "operations") (h : stepField cb st f = .ok st') :
    st'.request = st.request := by
  unfold stepField at h
  rw [if_neg hn] at h
  by_cases hm : f.name = "map"
  · rw [if_pos hm] at h
    split at h
    · cases h
      rfl
    · cases h
  · rw [if_neg hm] at h
    by_cases he : f.name = ""
    · rw [if_pos he] at h
      cases h
      rfl
    · rw [if_neg he] at h
      split at h <;> cases h <;> rfl

/-- A step on a field not named `map` leaves the decoded file map
unchanged. -/
theorem stepField_ok_map_eq {cb : Bool} {st st' : LoopState} {f : Field}
    (hn : f.name ≠ "map") (h : stepField cb st f = .ok st') :
    st'.map = st.map := by
  unfold stepField at h
  by_cases ho : f.name = "operations"
  · rw [if_pos ho] at h
    split at h
    · cases h
      rfl
    · cases h
  · rw [if_neg ho, if_neg hn] at h
    by_cases he : f.name = ""
    · rw [if_pos he] at h
      cases h
      rfl
    · rw [if_neg he] at h
      split at h <;> cases h <;> rfl

/-- A successful step on a field named `operations` leaves a decoded
request in the state. -/
theorem stepField_ok_request_some {cb : Bool} {st st' : LoopState} {f : Field}
    (hn : f.name = "operations") (h : stepField cb st f = .ok st') :
    st'.request.isSome = true := by
  unfold stepField at h
  rw [if_pos hn] at h
  split at h
  · cases h
    rfl
  · cases h

/-- A successful step never discards a decoded request. -/
theorem stepField_ok_request_mono {cb : Bool} {st st' : LoopState} {f : Field}
    (h : stepField cb st f = .ok st') (hs : st.request.isSome = true) :
    st'.request.isSome = true := by
  by_cases hn : f.name = "operations"
  · exact stepField_ok_request_some hn h
  · rw [stepField_ok_request_eq hn h]
    exact hs

/-- Draining fields none of which is named `operations` leaves the
request component unchanged. -/
theorem collectFields_request_eq (cb : Bool) (fields : List Field) :
    ∀ st st' : LoopState, collectFields cb st fields = .ok st' →
      (∀ f ∈ fields, f.name ≠ "operations") → st'.request = st.request := by
  induction fields with
  | nil =>
    intro st st' h _
    cases h
    rfl
  | cons f fs ih =>
    intro st st' h hall
    unfold collectFields at h
    split at h
    · rename_i st1 hstep
      rw [ih st1 st' h (fun g hg => hall g (List.mem_cons_of_mem f hg)),
        stepField_ok_request_eq (hall f (List.mem_cons_self f fs)) hstep]
    · cases h

/-- Draining fields none of which is named `map` leaves the map component
unchanged. -/
theorem collectFields_map_eq (cb : Bool) (fields : List Field) :
    ∀ st st' : LoopState, collectFields cb st fields = .ok st' →
      (∀ f ∈ fields, f.name ≠ "map") → st'.map = st.map := by
  induction fields with
  | nil =>
    intro st st' h _
    cases h
    rfl
  | cons f fs ih =>
    intro st st' h hall
    unfold collectFields at h
    split at h
    · rename_i st1 hstep
      rw [ih st1 st' h (fun g hg => hall g (List.mem_cons_of_mem f hg)),
        stepField_ok_map_eq (hall f (List.mem_cons_self f fs)) hstep]
    · cases h

/-- A successful drain of a field list containing an `operations` field
leaves a decoded request in the state. -/
theorem collectFields_request_isSome (cb : Bool) (fields : List Field) :
    ∀ st st' : LoopState, collectFields cb st fields = .ok st' →
      ((∃ f ∈ fields, f.name = "operations") ∨ st.request.isSome = true) →
      st'.request.isSome = true := by
  induction fields with
  | nil =>
    intro st st' h hd
    cases h
    cases hd with
    | inl hex => obtain ⟨f, hf, _⟩ := hex; cases hf
    | inr hs => exact hs
  | cons f fs ih =>
    intro st st' h hd
    unfold collectFields at h
    split at h
    · rename_i st1 hstep
      apply ih st1 st' h
      cases hd with
      | inl hex =>
        obtain ⟨g, hg, hgname⟩ := hex
        cases List.mem_cons.mp hg with
        | inl hgf =>
          exact Or.inr (stepField_ok_request_some (hgf ▸ hgname) hstep)
        | inr hgfs => exact Or.inl ⟨g, hgfs, hgname⟩
      | inr hs => exact Or.inr (stepField_ok_request_mono hstep hs)
    · cases h

/-- C5: when the field stream drains without error, a multipart request
with no `operations` field fails with `MissingOperatorsPart` (the error
the spec calls `MissingOperationsPart`), and one with an `operations`
field but no `map` field fails with `MissingMapPart`. -/
theorem c5_missing_parts (cb : Bool) (fields : List Field) (st : LoopState)
    (hok : collectFields cb initState fields = .ok st) :
    ((∀ f ∈ fields, f.name ≠ "operations") →
      receive_batch_multipart cb fields = .error (.parse .missingOperatorsPart))
    ∧ ((∀ f ∈ fields, f.name ≠ "map") → (∃ f ∈ fields, f.name = "operations") →
      receive_batch_multipart cb fields = .error (.parse .missingMapPart)) := by
  constructor
  · intro hall
    have hreq : st.request = none := collectFields_request_eq cb fields initState st hok hall
    unfold receive_batch_multipart
    simp only [hok, hreq]
  · intro hall hex
    have hmap : st.map = none := collectFields_map_eq cb fields initState st hok hall
    have hsome : st.request.isSome = true :=
      collectFields_request_isSome cb fields initState st hok (Or.inl hex)
    obtain ⟨b, hb⟩ := Option.isSome_iff_exists.mp hsome
    unfold receive_batch_multipart
    simp only [hok, hb, hmap]

/-- The `map`-only field used by the C5 witness. -/
def c5MapField : Field :=
  { name := "map", filename := none, content_type := none,
    content := { asJson := some (.obj []), asCborFileMap := none, contentId := 1 } }

/-- The `operations`-only field used by the C5 witness. -/
def c5OpsField : Field :=
  { name := "operations", filename := none, content_type := none,
    content := { asJson := some (.obj [("query", .str "{a}")]), asCborFileMap := none,
                 contentId := 2 } }

/-- Witness for C5: a request with only a `map` field fails with
`MissingOperatorsPart`; one with only an `operations` field fails with
`MissingMapPart`. -/
theorem c5_missing_parts_witness :
    receive_batch_multipart false [c5MapField] = .error (.parse .missingOperatorsPart)
    ∧ receive_batch_multipart false [c5OpsField] = .error (.parse .missingMapPart) := by
  constructor
  · refine (c5_missing_parts false [c5MapField]
      { request := none, map := some [], files := [] } rfl).1 ?_
    intro f hf
    rw [List.mem_singleton] at hf
    subst hf
    decide
  · refine (c5_missing_parts false [c5OpsField]
      { request := some (.Single { query := "{a}", uploads := [] }), map := none, files := [] }
      rfl).2 ?_ ⟨c5OpsField, List.mem_singleton.mpr rfl, rfl⟩
    intro f hf
    rw [List.mem_singleton] at hf
    subst hf
    decide

/-- After binding, the residual file map holds exactly the entries whose
key matches no collected file part's name. -/
theorem bindFiles_snd (fes : List FileEntry) :
    ∀ (b : BatchRequest) (m : FileMap),
      (bindFiles b m fes).2 =
        m.filter (fun kv => !(fes.any (fun fe => decide (fe.name = kv.1)))) := by
  induction fes with
  | nil =>
    intro b m
    show m = m.filter _
    rw [List.filter_eq_self.mpr]
    intro kv _
    rfl
  | cons fe rest ih =>
    intro b m
    unfold bindFiles
    cases hl : lookupFM m fe.name with
    | some paths =>
      rw [ih]
      unfold removeFM
      rw [List.filter_filter]
      apply List.filter_congr
      intro kv _
      by_cases h : fe.name = kv.1
      · simp [h]
      · have h' : ¬(kv.1 = fe.name) := fun he => h he.symm
        simp [h, h']
    | none =>
      rw [ih]
      apply List.filter_congr
      intro kv hkv
      have hne : ¬(fe.name = kv.1) := by
        intro he
        have hfind : List.find? (fun p => p.1 = fe.name) m = none :=
          Option.map_eq_none'.mp hl
        have := List.find?_eq_none.mp hfind kv hkv
        simp at this
        exact this he.symm
      simp [hne]

/-- C4: when the stream drains without error and both the operations and
the map fields decoded, a map key matched by no collected file part makes
decoding fail with `MissingFiles`. -/
theorem c4_missing_files (cb : Bool) (fields : List Field) (st : LoopState)
    (req : BatchRequest) (m : FileMap) (kv : String × List String)
    (hok : collectFields cb initState fields = .ok st)
    (hreq : st.request = some req) (hmap : st.map = some m)
    (hkv : kv ∈ m) (hnofile : ∀ fe ∈ st.files, fe.name ≠ kv.1) :
    receive_batch_multipart cb fields = .error (.parse .missingFiles) := by
  unfold receive_batch_multipart
  simp only [hok, hreq, hmap]
  have h2 : (bindFiles req m st.files).2 =
      m.filter (fun p => !(st.files.any (fun fe => decide (fe.name = p.1)))) :=
    bindFiles_snd st.files req m
  have hmem : kv ∈ (bindFiles req m st.files).2 := by
    rw [h2]
    apply List.mem_filter.mpr
    refine ⟨hkv, ?_⟩
    rw [Bool.not_eq_true', List.any_eq_false]
    intro fe hfe
    simpa using hnofile fe hfe
  have hne : (bindFiles req m st.files).2.isEmpty = false := by
    cases hb : (bindFiles req m st.files).2 with
    | nil => rw [hb] at hmem; cases hmem
    | cons x xs => rfl
  simp only [hne]
  rfl

/-- The `map` field declaring an entry `f` with no matching file part,
for the C4 witness. -/
def c4MapField : Field :=
  { name := "map", filename := none, content_type := none,
    content := { asJson := some (.obj [("f", .arr [.str "variables.file"])]),
                 asCborFileMap := none, contentId := 1 } }

/-- Witness for C4: operations and map decode, the map declares `f`, but
no file part named `f` arrives, so decoding fails with `MissingFiles`. -/
theorem c4_missing_files_witness :
    receive_batch_multipart false [c5OpsField, c4MapField] =
      .error (.parse .missingFiles) := by
  refine c4_missing_files false [c5OpsField, c4MapField]
    { request := some (.Single { query := "{a}", uploads := [] }),
      map := some [("f", ["variables.file"])], files := [] }
    (.Single { query := "{a}", uploads := [] }) [("f", ["variables.file"])]
    ("f", ["variables.file"]) rfl rfl rfl (List.mem_singleton.mpr rfl) ?_
  intro fe hfe
  cases hfe

/-- C6 (amended): a field whose name is neither `operations` nor `map`
is collected as a file part only when it carries a filename AND its name
is nonempty; a field with no filename, or with an empty name (even with a
filename), is silently ignored. -/
theorem c6_file_part_collection (cb : Bool) (st : LoopState) (f : Field)
    (hops : f.name ≠ "operations") (hmap : f.name ≠ "map") :
    (∀ fn, f.name ≠ "" → f.filename = some fn →
      stepField cb st f = .ok { st with files := st.files ++
        [{ name := f.name, filename := fn,
           content_type := some (mimeToString (f.content_type.getD APPLICATION_JSON)),
           contentId := f.content.contentId }] })
    ∧ (f.filename = none → stepField cb st f = .ok st)
    ∧ (f.name = "" → stepField cb st f = .ok st) := by
  refine ⟨?_, ?_, ?_⟩
  · intro fn hne hfn
    unfold stepField
    rw [if_neg hops, if_neg hmap, if_neg hne, hfn]
  · intro hfn
    unfold stepField
    rw [if_neg hops, if_neg hmap]
    by_cases hne : f.name = ""
    · rw [if_pos hne]
    · rw [if_neg hne, hfn]
  · intro hne
    unfold stepField
    rw [if_neg hops, if_neg hmap, if_pos hne]

/-- The empty-named file-bearing field that refutes C6 as stated. -/
def c6Field : Field :=
  { name := "", filename := some "a.txt", content_type := none,
    content := { asJson := none, asCborFileMap := none, contentId := 3 } }

/-- Counterexample to C6 as stated: a field whose name is neither
`operations` nor `map` and which carries a filename, but whose name is
empty, is NOT collected as a file part — the loop leaves the collected
file list empty. -/
theorem c6_empty_name_cex :
    (collectFields true initState [c6Field]).map LoopState.files = .ok []
    ∧ c6Field.name ≠ "operations"
    ∧ c6Field.name ≠ "map"
    ∧ c6Field.filename = some "a.txt" := by
  exact ⟨rfl, by decide, by decide, rfl⟩

/-- Witness for C6 (amended): a nonempty-named field with a filename is
collected with the default `application/json` content type; one without
a filename is ignored. -/
theorem c6_file_part_collection_witness :
    stepField true initState
      { name := "f1", filename := some "a.txt", content_type := none,
        content := { asJson := none, asCborFileMap := none, contentId := 4 } } =
      .ok { request := none, map := none,
            files := [{ name := "f1", filename := "a.txt",
                        content_type := some "application/json", contentId := 4 }] }
    ∧ stepField true initState
      { name := "f2", filename := none, content_type := none,
        content := { asJson := none, asCborFileMap := none, contentId := 5 } } =
      .ok initState := by
  constructor
  · have h := (c6_file_part_collection true initState
      { name := "f1", filename := some "a.txt", content_type := none,
        content := { asJson := none, asCborFileMap := none, contentId := 4 } }
      (by decide) (by decide)).1 "a.txt" (by decide) rfl
    rw [h]
    rfl
  · exact (c6_file_part_collection true initState
      { name := "f2", filename := none, content_type := none,
        content := { asJson := none, asCborFileMap := none, contentId := 5 } }
      (by decide) (by decide)).2.1 rfl

/-- Elementwise operation decoding preserves the number of elements. -/
theorem parseRequestList_length (xs : List Json) :
    ∀ rs : List Request, parseRequestList xs = some rs → rs.length = xs.length := by
  induction xs with
  | nil =>
    intro rs h
    cases h
    rfl
  | cons j js ih =>
    intro rs h
    unfold parseRequestList at h
    split at h
    · rename_i r hr
      cases hm : parseRequestList js with
      | some tl =>
        rw [hm] at h
        cases h
        simp [ih tl hm]
      | none => rw [hm] at h; cases h
    · cases h

/-- Elementwise operation decoding preserves array order: element `i` of
the decoded batch is the decode of element `i` of the JSON array. -/
theorem parseRequestList_get? (xs : List Json) :
    ∀ rs : List Request, parseRequestList xs = some rs →
      ∀ i, rs.get? i = (xs.get? i).bind parseRequest := by
  induction xs with
  | nil =>
    intro rs h i
    cases h
    rfl
  | cons j js ih =>
    intro rs h i
    unfold parseRequestList at h
    split at h
    · rename_i r hr
      cases hm : parseRequestList js with
      | some tl =>
        rw [hm] at h
        cases h
        cases i with
        | zero => simp [hr]
        | succ n => simpa using ih tl hm n
      | none => rw [hm] at h; cases h
    · cases h

/-- C1 (amended): the `operations` bytes are decoded as JSON only,
whatever the field's content type: a JSON array whose elements all parse
as operation documents yields a batch-shaped `BatchRequest` of the same
length in array order; a JSON object parsing as an operation document
yields a single-shaped one; bytes parsing as neither shape make decoding
fail with the bare JSON decode error — not one of the named
`ParseRequestError` kinds — which the extraction facade surfaces as
`InvalidRequest`. -/
theorem c1_operations_decoding (cborEnabled : Bool) (c : Content) :
    (∀ xs rs, c.asJson = some (.arr xs) → parseRequestList xs = some rs →
      decodeOperationsField c = .ok (.Batch rs) ∧ rs.length = xs.length
        ∧ ∀ i, rs.get? i = (xs.get? i).bind parseRequest)
    ∧ (∀ j r, c.asJson = some j → parseRequest j = some r →
      decodeOperationsField c = .ok (.Single r))
    ∧ (c.asJson.bind parseBatchRequest = none →
      decodeOperationsField c = .error .jsonDecode
        ∧ VizError.jsonDecode.isNamedParseKind = false)
    ∧ (∀ fields e, receive_batch_multipart cborEnabled fields = .error e →
      gqlBatchExtract cborEnabled (.multipartReq fields) = .error .invalidRequest) := by
  refine ⟨?_, ?_, ?_, ?_⟩
  · intro xs rs hjson hlist
    refine ⟨?_, parseRequestList_length xs rs hlist, parseRequestList_get? xs rs hlist⟩
    unfold decodeOperationsField
    rw [hjson]
    show (match parseBatchRequest (.arr xs) with
      | some b => Except.ok b
      | none => Except.error VizError.jsonDecode) = Except.ok (.Batch rs)
    unfold parseBatchRequest
    show (match (parseRequestList xs).map BatchRequest.Batch with
      | some b => Except.ok b
      | none => Except.error VizError.jsonDecode) = Except.ok (.Batch rs)
    rw [hlist]
    rfl
  · intro j r hjson hreq
    unfold decodeOperationsField
    rw [hjson]
    show (match parseBatchRequest j with
      | some b => Except.ok b
      | none => Except.error VizError.jsonDecode) = Except.ok (.Single r)
    unfold parseBatchRequest
    rw [hreq]
  · intro hnone
    refine ⟨?_, rfl⟩
    unfold decodeOperationsField
    rw [hnone]
  · intro fields e herr
    show (receive_batch_multipart cborEnabled fields).mapError
        (fun x => ParseRequestError.invalidRequest) = Except.error ParseRequestError.invalidRequest
    rw [herr]
    rfl

/-- An `operations` field whose bytes parse as neither a JSON array nor a
JSON object (for instance CBOR-only or garbage bytes). -/
def c1OpsField : Field :=
  { name := "operations", filename := none, content_type := none,
    content := { asJson := none, asCborFileMap := none, contentId := 6 } }

/-- Counterexample to C1 as stated: on `operations` bytes that parse as
neither shape, decoding fails with the bare propagated JSON decode error,
which is none of the named `ParseRequestError` kinds — there is no
dedicated `MalformedOperations` kind in the code. -/
theorem c1_malformed_operations_cex :
    receive_batch_multipart true [c1OpsField] = .error .jsonDecode
    ∧ VizError.jsonDecode.isNamedParseKind = false
    ∧ gqlBatchExtract true (.multipartReq [c1OpsField]) = .error .invalidRequest := by
  exact ⟨rfl, rfl, rfl⟩

/-- The two-element operations array used by the C1 witness. -/
def c1ArrayContent : Content :=
  { asJson := some (.arr [.obj [("query", .str "{a}")], .obj [("query", .str "{b}")]]),
    asCborFileMap := none, contentId := 7 }

/-- Witness for C1 (amended): a two-element JSON array decodes to a
batch-shaped request of length two in array order, and a JSON object
decodes to a single-shaped request. -/
theorem c1_operations_decoding_witness :
    decodeOperationsField c1ArrayContent =
      .ok (.Batch [{ query := "{a}", uploads := [] }, { query := "{b}", uploads := [] }])
    ∧ decodeOperationsField
        { asJson := some (.obj [("query", .str "{a}")]), asCborFileMap := none, contentId := 8 } =
      .ok (.Single { query := "{a}", uploads := [] }) := by
  constructor
  · exact ((c1_operations_decoding true c1ArrayContent).1
      [.obj [("query", .str "{a}")], .obj [("query", .str "{b}")]]
      [{ query := "{a}", uploads := [] }, { query := "{b}", uploads := [] }] rfl rfl).1
  · exact (c1_operations_decoding true
      { asJson := some (.obj [("query", .str "{a}")]), asCborFileMap := none, contentId := 8 }).2.1
      (.obj [("query", .str "{a}")]) { query := "{a}", uploads := [] } rfl rfl

end AsyncGraphqlViz
